import Mathlib

/-!
Shallow embedding of the Google Takeout migration engine
(`process_photos.py`) — data model and the operations that the archive-to-
destination reconciliation pipeline is built from.  Pure string and list
functions mirror the Python code directly; the stateful parts (extraction,
commit-to-destination, cleanup) are modelled as explicit state passing over
a simple filesystem model (directories are association lists from file
names to abstract content identifiers).  External tool invocations
(ffmpeg, ffprobe, PIL, exiftool) are modelled by their observable result
(a success flag and, where relevant, the produced text output), since the
Python code only branches on these observables.
-/

namespace ProcessPhotos

/-! ### Path helpers (pathlib semantics on file names)

`splitStemExt` mirrors `pathlib.PurePath.stem` / `.suffix`: the suffix is
`name[i:]` for `i` the index of the LAST dot, provided `0 < i < len - 1`;
otherwise the suffix is empty and the stem is the whole name. -/

def splitStemExt (name : String) : String × String :=
  let cs := name.data
  let n := cs.length
  match ((List.range n).filter (fun i => cs.getD i ' ' = '.')).getLast? with
  | some i =>
      if 0 < i ∧ i < n - 1 then (⟨cs.take i⟩, ⟨cs.drop i⟩) else (name, "")
  | none => (name, "")

def stemOf (name : String) : String := (splitStemExt name).1

def suffixOf (name : String) : String := (splitStemExt name).2

/-- `Path.with_suffix(s)`: drop the current suffix (if any) and append `s`. -/
def withSuffix (name : String) (s : String) : String := stemOf name ++ s

/-- `str.lower()` (ASCII case folding, as the source applies it to
extensions and codec names). -/
def pyLower (s : String) : String := ⟨s.data.map Char.toLower⟩

def isSpaceChar (c : Char) : Bool :=
  c = ' ' || c = '\t' || c = '\n' || c = '\r' || c = '\x0b' || c = '\x0c'

/-- Python's `str.strip()` with no arguments. -/
def pyStrip (s : String) : String :=
  ⟨((s.data.dropWhile isSpaceChar).reverse.dropWhile isSpaceChar).reverse⟩

/-- Python's `s[:n]` character slice. -/
def pyTake (s : String) (n : Nat) : String := ⟨s.data.take n⟩

/-- Python's `s.startswith(p)`. -/
def pyStarts (p s : String) : Bool := p.data.isPrefixOf s.data

/-- Split a character list on `/`. -/
def splitOnSlash : List Char → List (List Char)
  | [] => [[]]
  | c :: t =>
    let r := splitOnSlash t
    if c = '/' then [] :: r
    else
      match r with
      | h :: t2 => (c :: h) :: t2
      | [] => [[c]]

/-- Python's `needle in hay` substring test, over character lists. -/
def listSub (needle : List Char) : List Char → Bool
  | [] => needle.isEmpty
  | c :: t => needle.isPrefixOf (c :: t) || listSub needle t

/-- Python's `needle in hay` on strings. -/
def strContains (needle hay : String) : Bool := listSub needle.data hay.data

/-- Last path component of a zip member name (zip names use `/`), mirroring
`pathlib.Path(name).name` (a trailing `/` on directory entries is dropped). -/
def pathLastComponent (s : String) : String :=
  (((splitOnSlash s.data).map String.mk).filter (fun c => c ≠ "")).getLastD ""

/-! ### Configuration constants (source lines 35, 210, 250) -/

def MEDIA_EXTENSIONS : List String :=
  [".jpg", ".jpeg", ".png", ".heic", ".mov", ".mp4", ".gif", ".avi", ".3gp",
   ".m4v", ".mpg", ".flv", ".wmv"]

/-- The legacy video containers routed to `fix_video`
(`process_media_compatibility`, line 210). -/
def legacyVideoExts : List String :=
  [".mov", ".avi", ".3gp", ".m4v", ".flv", ".wmv", ".mpg"]

/-- Vendor-noise suffixes tried by `find_matching_media` (line 250). -/
def vendorSuffixes : List String := ["-edited", "(1)", "(2)"]

/-! ### Directory model: association list of (file name, content id) -/

def containsName (n : String) (l : List (String × Nat)) : Bool :=
  l.any (fun e => e.1 == n)

def lookupName (n : String) (l : List (String × Nat)) : Option Nat :=
  (l.find? (fun e => e.1 == n)).map (fun e => e.2)

def removeName (m : String) (l : List (String × Nat)) : List (String × Nat) :=
  l.filter (fun e => !(e.1 == m))

def removeAll (names : List String) (l : List (String × Nat)) :
    List (String × Nat) :=
  l.filter (fun e => !(names.contains e.1))

/-! ### QA predictor: `get_expected_filename` (lines 260-267) -/

def get_expected_filename (zip_filename : String) : String :=
  let stem := stemOf zip_filename
  let ext := pyLower (suffixOf zip_filename)
  if ext = ".heic" then stem ++ ".jpg"
  else if ext = ".png" then stem ++ ".jpg"
  else if ext ∈ legacyVideoExts then stem ++ ".mp4"
  else zip_filename

/-! ### Media normalizer: `fix_video` (148-195) and `fix_png` (197-205)

The filesystem effect of each repair, together with the trace of the
destructive operations performed, in the order the source performs them.
`ffmpegOk` / `saveOk` is the external invocation's success observable
(`res.returncode == 0`, resp. `PIL.save` not raising); `unlinkOk` models
the `try` around `input_path.unlink()` and the conditional rename (the
`except OSError` branch).  The failure branch of either function performs
no filesystem mutation in the source. -/

inductive FOp where
  | wroteOutput : FOp
  | deletedInput : FOp
deriving DecidableEq, Repr

def fix_video_fs (fs : List (String × Nat)) (input : String) (ffmpegOk : Bool)
    (outContent : Nat) (unlinkOk : Bool) :
    List (String × Nat) × String × List FOp :=
  let mp4Name := withSuffix input ".mp4"
  let outName := if mp4Name = input then stemOf input ++ "_fixed.mp4" else mp4Name
  if ffmpegOk then
    let fs1 := (outName, outContent) :: removeName outName fs
    if unlinkOk then
      let fs2 := removeName input fs1
      let fs3 := if outName = mp4Name then fs2
                 else (mp4Name, outContent) :: removeName mp4Name (removeName outName fs2)
      (fs3, mp4Name, [.wroteOutput, .deletedInput])
    else (fs1, outName, [.wroteOutput])
  else (fs, input, [])

def fix_png_fs (fs : List (String × Nat)) (input : String) (saveOk : Bool)
    (outContent : Nat) : List (String × Nat) × String × List FOp :=
  let outName := withSuffix input ".jpg"
  if saveOk then
    let fs1 := (outName, outContent) :: removeName outName fs
    let fs2 := removeName input fs1
    (fs2, outName, [.wroteOutput, .deletedInput])
  else (fs, input, [])

/-- The name returned by `fix_video` (its only use in the naming claims). -/
def fix_video_name (input : String) (ffmpegOk unlinkOk : Bool) : String :=
  (fix_video_fs [] input ffmpegOk 0 unlinkOk).2.1

/-- The name returned by `fix_png`. -/
def fix_png_name (input : String) (saveOk : Bool) : String :=
  (fix_png_fs [] input saveOk 0).2.1

/-- `process_media_compatibility` (lines 207-211), at the level of the
resulting file name. -/
def process_media_compatibility (fname : String)
    (ffmpegOk saveOk unlinkOk : Bool) : String :=
  let ext := pyLower (suffixOf fname)
  if ext = ".png" then fix_png_name fname saveOk
  else if ext ∈ legacyVideoExts then fix_video_name fname ffmpegOk unlinkOk
  else fname

/-- The destination file name actually produced for one staged media file by
the phase-1/phase-2 loop of `main` (lines 363-371 and 383-393): `.heic` is
converted inline to `stem ++ ".jpg"` (skipped entirely, `none`, when the PIL
conversion raises); everything else is copied and run through
`process_media_compatibility`.  Callers pass bare file names
(`media.name`). -/
def phase1_target_name (mediaName : String)
    (heicOk ffmpegOk saveOk unlinkOk : Bool) : Option String :=
  if pyLower (suffixOf mediaName) = ".heic" then
    if heicOk then some (stemOf mediaName ++ ".jpg") else none
  else some (process_media_compatibility mediaName ffmpegOk saveOk unlinkOk)

/-! ### Codec probe: `check_needs_transcode` (124-146) and the command
selection of `fix_video` (156-179) -/

/-- The compatibility test the source applies to the probed codec string:
`"h264" in codec or "avc1" in codec` after strip+lower (line 144). -/
def broadly_compatible (probeOut : String) : Bool :=
  let codec := pyLower (pyStrip probeOut)
  strContains "h264" codec || strContains "avc1" codec

/-- `check_needs_transcode`: `True` means transcode (safe mode), `False`
means stream-copy remux.  A missing ffprobe binary is a safety fallback to
transcode (line 130). -/
def check_needs_transcode (ffprobeExists : Bool) (probeOut : String) : Bool :=
  if ffprobeExists = false then true
  else !(broadly_compatible probeOut)

/-- The ffmpeg output path chosen by `fix_video` (lines 149-151). -/
def fix_video_output (input : String) : String :=
  if withSuffix input ".mp4" = input then stemOf input ++ "_fixed.mp4"
  else withSuffix input ".mp4"

/-- The ffmpeg argument list and the statistics key selected by `fix_video`
(lines 156-179), with the executable path abstracted as "FFMPEG". -/
def fix_video_command (ffprobeExists : Bool) (probeOut : String)
    (input : String) : List String × String :=
  if check_needs_transcode ffprobeExists probeOut then
    (["FFMPEG", "-y", "-i", input,
      "-c:v", "libx264", "-crf", "23", "-preset", "fast",
      "-c:a", "aac", "-b:a", "128k", "-pix_fmt", "yuv420p",
      "-movflags", "+faststart", fix_video_output input],
     "videos_fixed_transcode")
  else
    (["FFMPEG", "-y", "-i", input,
      "-c", "copy", "-movflags", "+faststart", "-f", "mp4",
      fix_video_output input],
     "videos_fixed_remux")

/-! ### Timestamp resolver: `epoch_to_exif` (102-104),
`get_internal_date` (106-113), `get_year_from_folder` (115-118) and the
timestamp-selection chain of `apply_timestamp` (213-226) -/

def pad2 (n : Nat) : String :=
  if n < 10 then "0" ++ toString n else toString n

/-- Gregorian date from days since 1970-01-01 (proleptic civil calendar,
matching `datetime.fromtimestamp(_, tz=utc)` for non-negative epochs). -/
def civilFromDays (z0 : Nat) : Nat × Nat × Nat :=
  let z := z0 + 719468
  let era := z / 146097
  let doe := z % 146097
  let yoe := (doe - doe / 1460 + doe / 36524 - doe / 146096) / 365
  let y := yoe + era * 400
  let doy := doe - (365 * yoe + yoe / 4 - yoe / 100)
  let mp := (5 * doy + 2) / 153
  let d := doy - (153 * mp + 2) / 5 + 1
  let m := if mp < 10 then mp + 3 else mp - 9
  (if m ≤ 2 then y + 1 else y, m, d)

def epoch_to_exif (epoch : Nat) : String :=
  let days := epoch / 86400
  let rem := epoch % 86400
  let ymd := civilFromDays days
  toString ymd.1 ++ ":" ++ pad2 ymd.2.1 ++ ":" ++ pad2 ymd.2.2 ++ " " ++
    pad2 (rem / 3600) ++ ":" ++ pad2 ((rem % 3600) / 60) ++ ":" ++
    pad2 (rem % 60)

/-- One exiftool tag query: `some out` models returncode 0 with stdout
`out`; the source accepts it only if the stripped stdout is nonempty and
returns the stripped value (lines 109, 112). -/
def tryTag (res : Option String) : Option String :=
  match res with
  | some out => if pyStrip out ≠ "" then some (pyStrip out) else none
  | none => none

/-- `get_internal_date`: DateTimeOriginal first, CreateDate as fallback. -/
def get_internal_date (dtoRes cdRes : Option String) : Option String :=
  match tryTag dtoRes with
  | some ts => some ts
  | none => tryTag cdRes

/-- Leftmost match of the regex `(?:19|20)\d{2}` (line 116). -/
def findYearMatch : List Char → Option (List Char)
  | c1 :: c2 :: c3 :: c4 :: rest =>
      if ((c1 = '1' ∧ c2 = '9') ∨ (c1 = '2' ∧ c2 = '0')) ∧
          c3.isDigit ∧ c4.isDigit then
        some [c1, c2, c3, c4]
      else findYearMatch (c2 :: c3 :: c4 :: rest)
  | _ => none

/-- `get_year_from_folder`, applied to the immediate parent folder's name. -/
def get_year_from_folder (parentName : String) : Option String :=
  match findYearMatch parentName.data with
  | some y => some (String.mk y ++ ":01:01 12:00:00")
  | none => none

inductive TsSource where
  | json : TsSource
  | internal : TsSource
  | inferred : TsSource
  | fallback : TsSource
deriving DecidableEq, Repr

/-- The timestamp-selection chain of `apply_timestamp` (lines 213-226),
together with which STATS bucket it increments.  `ts_epoch` is the sidecar
epoch (`if ts_epoch:` — Python truthiness on the numeric value, i.e. the
branch is taken only for a nonzero epoch); `dtoRes`/`cdRes` are the two
exiftool tag queries of `get_internal_date`; `parentName` is the file's
immediate parent folder name; `mtimeStr` is the already-formatted
filesystem modification time (the unconditional last resort). -/
def resolve_timestamp (ts_epoch : Option Nat) (dtoRes cdRes : Option String)
    (parentName : String) (mtimeStr : String) : String × TsSource :=
  let step1 : Option String :=
    match ts_epoch with
    | some e => if e ≠ 0 then some (epoch_to_exif e) else none
    | none => none
  match step1 with
  | some ts => (ts, .json)
  | none =>
    match get_internal_date dtoRes cdRes with
    | some ts => (ts, .internal)
    | none =>
      match get_year_from_folder parentName with
      | some ts => (ts, .inferred)
      | none => (mtimeStr, .fallback)

/-! ### Metadata matcher: `find_matching_media` (243-255) -/

structure DirEntry where
  name : String
  isFile : Bool
deriving DecidableEq, Repr

def folderHas (folder : List DirEntry) (nm : String) : Bool :=
  folder.any (fun e => e.name == nm)

/-- Stage 1: the title used verbatim as a file name (line 246-247). -/
def stage1_exact (title : String) (folder : List DirEntry) : Option String :=
  if folderHas folder title then some title else none

/-- Stage 2: the title's stem combined with each supported extension
(lines 248-249; the source iterates a Python set — we fix the literal order
of line 35, on which no claim depends). -/
def stage2_stem_ext (stem : String) (folder : List DirEntry) : Option String :=
  MEDIA_EXTENSIONS.findSome? (fun ext =>
    if folderHas folder (stem ++ ext) then some (stem ++ ext) else none)

/-- Stage 3: stem plus a vendor-noise suffix, with each supported extension
(lines 250-252). -/
def stage3_suffix_ext (stem : String) (folder : List DirEntry) :
    Option String :=
  vendorSuffixes.findSome? (fun sfx =>
    MEDIA_EXTENSIONS.findSome? (fun ext =>
      if folderHas folder (stem ++ sfx ++ ext) then some (stem ++ sfx ++ ext)
      else none))

/-- Stage 4: any media file whose name starts with the first 10 characters
of the stem (lines 253-254). -/
def stage4_fuzzy (stem : String) (folder : List DirEntry) : Option String :=
  folder.findSome? (fun item =>
    if item.isFile &&
        MEDIA_EXTENSIONS.contains (pyLower (suffixOf item.name)) &&
        pyStarts (pyTake stem 10) item.name then
      some item.name
    else none)

/-- `find_matching_media`: the four stages tried in the source's order,
first success winning; `none` is the non-fatal not-found outcome (the
caller does `if not media: continue`). -/
def find_matching_media (title : String) (folder : List DirEntry) :
    Option String :=
  match stage1_exact title folder with
  | some r => some r
  | none =>
    match stage2_stem_ext (stemOf title) folder with
    | some r => some r
    | none =>
      match stage3_suffix_ext (stemOf title) folder with
      | some r => some r
      | none => stage4_fuzzy (stemOf title) folder

/-! ### Sidecar title normalization (`main`, lines 351-356) -/

inductive PyVal where
  | pstr : String → PyVal
  | plist : List PyVal → PyVal
  | pint : Int → PyVal
  | pnone : PyVal
deriving Repr

/-- Python truthiness for the values a JSON `title` field can take. -/
def pyTruthy : PyVal → Bool
  | .pstr s => s ≠ ""
  | .plist l => !l.isEmpty
  | .pint n => n ≠ 0
  | .pnone => false

/-- `if isinstance(title, list): title = title[0]` — indexing an empty list
raises IndexError (line 355). -/
def title_after_list : PyVal → Except String PyVal
  | .plist [] => .error "IndexError"
  | .plist (x :: _) => .ok x
  | v => .ok v

/-- The title normalization of `main` (lines 354-356): `data.get("title")`
(absent field gives Python `None`), then the list unwrap, then
`if not title or not isinstance(title, str): continue` (modelled as
`.ok none`, the record being dropped). -/
def extract_title (titleField : Option PyVal) : Except String (Option String) :=
  match title_after_list (titleField.getD .pnone) with
  | .error e => .error e
  | .ok t =>
    if pyTruthy t then
      match t with
      | .pstr s => .ok (some s)
      | _ => .ok none
    else .ok none

/-! ### Archive indexer: the extraction loop of `main` (lines 331-335) -/

structure ZipArch where
  name : String
  corrupt : Bool
  entries : List String
deriving DecidableEq, Repr

/-- Staging tree under `META_DIR`: one `(folder name, extracted members)`
pair per archive. -/
abbrev MetaState := List (String × List String)

def hasFolder (stem : String) (st : MetaState) : Bool :=
  st.any (fun e => e.1 == stem)

/-- One iteration of the extraction loop: skip when the staging subfolder
already exists; otherwise `mkdir` then `extractall`.  A corrupt archive
raises inside `extractall`, AFTER the `mkdir` — the `false` flag models the
uncaught exception. -/
def extract_one (st : MetaState) (z : ZipArch) : MetaState × Bool :=
  let dest := stemOf z.name
  if hasFolder dest st then (st, true)
  else if z.corrupt then ((dest, []) :: st, false)
  else ((dest, z.entries) :: st, true)

/-- The whole extraction loop: the loop body has no exception handler, so a
raised `BadZipFile` propagates and aborts the run, leaving later archives
unprocessed. -/
def extract_phase (st : MetaState) :
    List ZipArch → Except (MetaState × String) MetaState
  | [] => .ok st
  | z :: rest =>
    let r := extract_one st z
    if r.2 then extract_phase r.1 rest else .error (r.1, z.name)

/-! ### Gate 1, commit, gate 2, cleanup (`main`, lines 400-456) -/

/-- Gate 1 (lines 401-410): every media member of every source archive
(skipping `"(1)"` duplicate-suffix variants) must have its lowercased stem
present among the lowercased stems of the staging population. -/
def zipMediaGaps (zips : List ZipArch) (importReady : List (String × Nat)) :
    List String :=
  let importStems := importReady.map (fun f => pyLower (stemOf f.1))
  zips.flatMap (fun z =>
    z.entries.filterMap (fun nm =>
      let p := pathLastComponent nm
      if pyLower (suffixOf p) ∈ MEDIA_EXTENSIONS then
        if strContains "(1)" p then none
        else if pyLower (stemOf p) ∈ importStems then none
        else some (z.name ++ " -> " ++ p)
      else none))

/-- One iteration of the move loop (lines 422-429), over accumulator
`(files_moved, import_ready, icloud)`.  The name is recorded in
`files_moved` BEFORE the move is attempted; when the destination already
has the name, it is unlinked first (`locked` lists the names whose unlink
raises — that `except` does `continue`, leaving the staged file in place
and the old destination file untouched). -/
def commitStep (locked : List String)
    (st : List String × List (String × Nat) × List (String × Nat))
    (f : String × Nat) :
    List String × List (String × Nat) × List (String × Nat) :=
  let moved := st.1 ++ [f.1]
  let ir := st.2.1
  let ic := st.2.2
  if containsName f.1 ic then
    if locked.contains f.1 then (moved, ir, ic)
    else (moved, removeName f.1 ir, f :: removeName f.1 ic)
  else (moved, removeName f.1 ir, f :: ic)

/-- The whole move loop, iterating over the snapshot of the staging
directory. -/
def commitPhase (ir ic : List (String × Nat)) (locked : List String) :
    List String × List (String × Nat) × List (String × Nat) :=
  ir.foldl (commitStep locked) ([], ir, ic)

/-- Gate 2 (lines 433-435): every name recorded as moved must exist in the
destination folder. -/
def gate2_missing (moved : List String) (ic : List (String × Nat)) :
    List String :=
  moved.filter (fun n => !(containsName n ic))

inductive BatchOutcome where
  | failedGate1 : BatchOutcome
  | failedGate2 : BatchOutcome
  | success : BatchOutcome
deriving DecidableEq, Repr

/-- The mutable directories of the batch after phases 1-5: the staging
population (`IMPORT_READY`), the destination (`ICLOUD_PHOTOS`) and the
extraction tree (`META_DIR`, kept opaque — only its survival matters). -/
structure PipelineFS where
  importReady : List (String × Nat)
  icloud : List (String × Nat)
  metaDir : List String
deriving DecidableEq, Repr

/-- Phases 6-11 of `main` (lines 400-456): gate 1, move-to-destination,
gate 2, log, cleanup.  `vanish` models names removed from the (cloud-sync
-owned) destination folder between the move loop and the gate-2 audit —
the external interference gate 2 exists to detect.  The returned list is
the sequence of `write_log` entries (status, details). -/
def run_batch (zips : List ZipArch) (fs : PipelineFS)
    (locked vanish : List String) :
    BatchOutcome × PipelineFS × List (String × List String) :=
  let missing1 := zipMediaGaps zips fs.importReady
  if missing1.isEmpty then
    let r := commitPhase fs.importReady fs.icloud locked
    let icAfter := removeAll vanish r.2.2
    let missing2 := gate2_missing r.1 icAfter
    if missing2.isEmpty then
      (.success, ⟨[], icAfter, []⟩,
        [("SUCCESS", ["All checks passed.", "Cleaned up workspace."])])
    else
      (.failedGate2, ⟨r.2.1, icAfter, fs.metaDir⟩,
        [("FAILED - ICLOUD TRANSFER ERROR", missing2)])
  else
    (.failedGate1, fs, [("FAILED - ZIP MISMATCH", missing1)])

/-! ### Helper lemmas about the directory model -/

theorem lookupName_cons (n : String) (f : String × Nat)
    (l : List (String × Nat)) :
    lookupName n (f :: l) = if f.1 == n then some f.2 else lookupName n l := by
  by_cases h : (f.1 == n) = true
  · simp [lookupName, List.find?, h]
  · simp only [Bool.not_eq_true] at h
    simp [lookupName, List.find?, h]

theorem lookupName_removeName_ne (n m : String) (l : List (String × Nat))
    (h : m ≠ n) : lookupName n (removeName m l) = lookupName n l := by
  induction l with
  | nil => rfl
  | cons f rest ih =>
    simp only [removeName] at ih ⊢
    by_cases hf : (f.1 == m) = true
    · have hfn : (f.1 == n) = false := by
        simp only [beq_eq_false_iff_ne]
        rw [show f.1 = m by simpa using hf]; exact h
      simp [List.filter_cons, hf, lookupName_cons, hfn, ih]
    · simp only [Bool.not_eq_true] at hf
      simp [List.filter_cons, hf, lookupName_cons, ih]

theorem mem_removeName_ne (p : String × Nat) (m : String)
    (l : List (String × Nat)) (hp : p ∈ l) (h : p.1 ≠ m) :
    p ∈ removeName m l := by
  simp only [removeName, List.mem_filter]
  exact ⟨hp, by simp [h]⟩

theorem containsName_eq_true_of_lookup (n : String) (l : List (String × Nat))
    (v : Nat) (h : lookupName n l = some v) : containsName n l = true := by
  induction l with
  | nil => simp [lookupName, List.find?] at h
  | cons f rest ih =>
    rw [lookupName_cons] at h
    by_cases hf : (f.1 == n) = true
    · simp [containsName, List.any_cons, hf]
    · simp only [Bool.not_eq_true] at hf
      rw [hf, if_neg (by simp)] at h
      simp [containsName, List.any_cons]
      right
      simpa [containsName] using ih h

/-! ### C9 : archive indexer idempotence -/

/-- C9: the Archive Indexer is idempotent.  Whatever the staging state and
the archive (including an archive whose first extraction attempt failed,
which left its freshly created subfolder behind), running `extract_one` a
second time on the state produced by the first run changes nothing and
reports no error: extraction is skipped because the staging subfolder named
after the archive already exists. -/
theorem C9_indexer_idempotent (st : MetaState) (z : ZipArch) :
    extract_one (extract_one st z).1 z = ((extract_one st z).1, true) := by
  by_cases h : hasFolder (stemOf z.name) st = true
  · simp [extract_one, h]
  · simp only [Bool.not_eq_true] at h
    by_cases hc : z.corrupt = true
    · have h2 : hasFolder (stemOf z.name)
          ((stemOf z.name, ([] : List String)) :: st) = true := by
        simp [hasFolder, List.any_cons]
      simp [extract_one, h, hc, h2]
    · simp only [Bool.not_eq_true] at hc
      have h2 : hasFolder (stemOf z.name)
          ((stemOf z.name, z.entries) :: st) = true := by
        simp [hasFolder, List.any_cons]
      simp [extract_one, h, hc, h2]

/-! ### C7 : corrupt archive handling -/

/-- C7 counterexample: a batch of three archives where the second is
corrupt.  Extraction aborts with an error (reported, not silently
skipped), but — contrary to the claim — the THIRD archive is never
extracted: the loop body has no exception handler, so the error terminates
the whole run and `takeout-003` has no staging folder. -/
theorem C7_counterexample :
    extract_phase []
      [⟨"takeout-001.zip", false, ["a.jpg"]⟩,
       ⟨"takeout-002.zip", true, ["b.jpg"]⟩,
       ⟨"takeout-003.zip", false, ["c.jpg"]⟩] =
      .error ([("takeout-002", []), ("takeout-001", ["a.jpg"])],
              "takeout-002.zip")
    ∧ hasFolder "takeout-003"
        [("takeout-002", []), ("takeout-001", ["a.jpg"])] = false := by
  exact ⟨rfl, rfl⟩

/-- C7 (amended): an unreadable or corrupt archive aborts that archive's
extraction and the failure is reported (the uncaught error names the
archive), not silently skipped — but the error terminates the whole batch
run, so the remaining archives after the corrupt one are NOT extracted in
that run; only archives whose staging subfolder already exists (e.g. from
a prior run) are unaffected.  The corrupt archive's staging folder is left
behind empty, because `mkdir` runs before `extractall`. -/
theorem C7_corrupt_archive_aborts_batch (st : MetaState) (z : ZipArch)
    (rest : List ZipArch) (hc : z.corrupt = true)
    (hnew : hasFolder (stemOf z.name) st = false) :
    extract_phase st (z :: rest) =
      .error ((stemOf z.name, []) :: st, z.name) := by
  simp [extract_phase, extract_one, hnew, hc]

theorem C7_corrupt_archive_aborts_batch_witness :
    extract_phase [] [⟨"takeout-007.zip", true, []⟩,
                      ⟨"takeout-008.zip", false, ["z.jpg"]⟩] =
      .error ([("takeout-007", [])], "takeout-007.zip") := by
  exact C7_corrupt_archive_aborts_batch [] ⟨"takeout-007.zip", true, []⟩
    [⟨"takeout-008.zip", false, ["z.jpg"]⟩] rfl rfl

/-! ### C8 : sidecar title normalization -/

/-- C8: the title normalization of `main`.  A nonempty list is normalized
to its first element and records whose title is missing, the empty string,
or not a string are dropped (`.ok none`) — but a title that is an EMPTY
list crashes the run: `title = title[0]` is executed before the usability
guard and raises an uncaught IndexError, so the pipeline DOES crash on
that unresolvable sidecar instead of dropping it. -/
theorem C8_empty_list_title_crashes :
    extract_title (some (.plist [])) = .error "IndexError"
    ∧ extract_title (some (.plist [.pstr "IMG_1.jpg", .pstr "alt"])) =
        .ok (some "IMG_1.jpg")
    ∧ extract_title (some (.pstr "")) = .ok none
    ∧ extract_title (some (.pint 5)) = .ok none
    ∧ extract_title none = .ok none := by
  exact ⟨rfl, rfl, rfl, rfl, rfl⟩

/-! ### C2 : destination-filename predictor vs actual normalization -/

/-- C2 counterexample: on a legacy video whose external repair invocation
(ffmpeg) fails, `fix_video` returns the ORIGINAL path, so the file the
pipeline ends up with is `clip.mov`, while the predictor
`get_expected_filename` says `clip.mp4` — the predictor and the actual
normalization diverge on repair failure, contradicting the claim's
"including on assets whose external repair invocation fails". -/
theorem C2_counterexample :
    phase1_target_name "clip.mov" true false true true = some "clip.mov"
    ∧ get_expected_filename "clip.mov" = "clip.mp4"
    ∧ phase1_target_name "clip.mov" true false true true ≠
        some (get_expected_filename "clip.mov") := by
  refine ⟨rfl, rfl, ?_⟩
  decide

/-- C2 (amended): for every media file whose normalization SUCCEEDS (the
external repair invocation and the subsequent source-file unlink return
success), the file name actually produced by the normalization step equals
the name predicted by the pure predictor `get_expected_filename`: same
stem with `.jpg` for `.heic`/`.png`, same stem with `.mp4` for the legacy
video containers, unchanged otherwise.  (On a failed repair the file keeps
its original name and the predictor diverges.) -/
theorem C2_predictor_matches_on_success (name : String) :
    phase1_target_name name true true true true =
      some (get_expected_filename name) := by
  unfold phase1_target_name process_media_compatibility get_expected_filename
  unfold fix_png_name fix_video_name fix_png_fs fix_video_fs
  by_cases h1 : pyLower (suffixOf name) = ".heic"
  · simp [h1, withSuffix]
  · by_cases h2 : pyLower (suffixOf name) = ".png"
    · simp [h1, h2, withSuffix]
    · by_cases h3 : pyLower (suffixOf name) ∈ legacyVideoExts
      · simp [h1, h2, h3, withSuffix]
      · simp [h1, h2, h3]

/-! ### C4 : codec probe selects remux vs transcode -/

/-- C4: with the probe tool available, the probe result alone selects the
repair path for a legacy video.  When the reported codec is broadly
compatible (contains "h264" or "avc1" after strip+lower), `fix_video`
performs the container-only remux (bit-exact `-c copy` stream copy into
MP4, no re-encode); for any other reported codec it performs the full
transcode to H.264 at the fixed quality target `-crf 23` (audio to AAC at
a fixed bitrate).  These are the only two paths. -/
theorem C4_probe_selects_path (pRemux pTrans input1 input2 : String)
    (hr : broadly_compatible pRemux = true)
    (ht : broadly_compatible pTrans = false) :
    check_needs_transcode true pRemux = false
    ∧ fix_video_command true pRemux input1 =
        (["FFMPEG", "-y", "-i", input1,
          "-c", "copy", "-movflags", "+faststart", "-f", "mp4",
          fix_video_output input1], "videos_fixed_remux")
    ∧ check_needs_transcode true pTrans = true
    ∧ fix_video_command true pTrans input2 =
        (["FFMPEG", "-y", "-i", input2,
          "-c:v", "libx264", "-crf", "23", "-preset", "fast",
          "-c:a", "aac", "-b:a", "128k", "-pix_fmt", "yuv420p",
          "-movflags", "+faststart", fix_video_output input2],
         "videos_fixed_transcode") := by
  refine ⟨?_, ?_, ?_, ?_⟩ <;>
    simp [check_needs_transcode, fix_video_command, hr, ht]

theorem C4_probe_selects_path_witness :
    check_needs_transcode true "h264" = false
    ∧ fix_video_command true "h264" "v.mov" =
        (["FFMPEG", "-y", "-i", "v.mov",
          "-c", "copy", "-movflags", "+faststart", "-f", "mp4",
          fix_video_output "v.mov"], "videos_fixed_remux")
    ∧ check_needs_transcode true "hevc" = true
    ∧ fix_video_command true "hevc" "w.avi" =
        (["FFMPEG", "-y", "-i", "w.avi",
          "-c:v", "libx264", "-crf", "23", "-preset", "fast",
          "-c:a", "aac", "-b:a", "128k", "-pix_fmt", "yuv420p",
          "-movflags", "+faststart", fix_video_output "w.avi"],
         "videos_fixed_transcode") := by
  exact C4_probe_selects_path "h264" "hevc" "v.mov" "w.avi" (by decide)
    (by decide)

/-! ### C3 : timestamp priority chain -/

/-- C3: the timestamp resolver applies a strict first-available-wins
chain.  (1) With a (truthy) sidecar capture-time epoch present, the epoch
converted to calendar time wins, regardless of any embedded tag;
(2) without a sidecar epoch, the embedded DateTimeOriginal tag is used;
(3) with that unavailable, CreateDate; (4) with no sidecar and no embedded
tag, a year found in the immediate parent folder's name yields Jan 1 at
noon of that year — "Summer 2014" gives "2014:01:01 12:00:00"; (5) with no
year in the folder name either, the file's filesystem modification time is
used, so every asset (orphans included) receives a timestamp. -/
theorem C3_timestamp_priority (e : Nat) (dto cd cd2 : Option String)
    (s1 s2 folder folderNoYear mtime : String)
    (he : e ≠ 0) (hs1 : pyStrip s1 ≠ "") (hs2 : pyStrip s2 ≠ "")
    (hfy : get_year_from_folder folderNoYear = none) :
    resolve_timestamp (some e) dto cd folder mtime = (epoch_to_exif e, .json)
    ∧ resolve_timestamp none (some s1) cd2 folder mtime =
        (pyStrip s1, .internal)
    ∧ resolve_timestamp none none (some s2) folder mtime =
        (pyStrip s2, .internal)
    ∧ resolve_timestamp none none none "Summer 2014" mtime =
        ("2014:01:01 12:00:00", .inferred)
    ∧ resolve_timestamp none none none folderNoYear mtime =
        (mtime, .fallback) := by
  refine ⟨?_, ?_, ?_, ?_, ?_⟩
  · simp [resolve_timestamp, he]
  · simp [resolve_timestamp, get_internal_date, tryTag, hs1]
  · simp [resolve_timestamp, get_internal_date, tryTag, hs2]
  · rfl
  · simp [resolve_timestamp, get_internal_date, tryTag, hfy]

theorem C3_timestamp_priority_witness :
    resolve_timestamp (some 1609459200) (some "2015:06:07 08:09:10")
        (some "2016:01:01 00:00:00") "Summer 2014" "2001:01:01 00:00:00" =
      (epoch_to_exif 1609459200, .json)
    ∧ resolve_timestamp none (some " 2015:06:07 08:09:10 ")
        (some "2016:01:01 00:00:00") "Summer 2014" "2001:01:01 00:00:00" =
      (pyStrip " 2015:06:07 08:09:10 ", .internal)
    ∧ resolve_timestamp none none (some "2016:01:01 00:00:00")
        "Summer 2014" "2001:01:01 00:00:00" =
      (pyStrip "2016:01:01 00:00:00", .internal)
    ∧ resolve_timestamp none none none "Summer 2014" "2001:01:01 00:00:00" =
      ("2014:01:01 12:00:00", .inferred)
    ∧ resolve_timestamp none none none "Hawaii Trip" "2001:01:01 00:00:00" =
      ("2001:01:01 00:00:00", .fallback) :=
  C3_timestamp_priority 1609459200 (some "2015:06:07 08:09:10")
    (some "2016:01:01 00:00:00") (some "2016:01:01 00:00:00")
    " 2015:06:07 08:09:10 " "2016:01:01 00:00:00" "Summer 2014"
    "Hawaii Trip" "2001:01:01 00:00:00" (by decide) (by decide) (by decide)
    (by decide)

/-! ### C5 : staged metadata matching -/

/-- C5: `find_matching_media` attempts its four stages in strict order with
the first success winning: (1) the title verbatim as a file name; (2) the
title's stem with each supported media extension; (3) the stem plus a
vendor-noise suffix with each supported extension; (4) any media file
whose name starts with the first 10 characters of the stem; and when the
first three stages fail the result is exactly stage 4's (which may be
`none`, the non-fatal not-found outcome the caller skips with
`continue`). -/
theorem C5_staged_matching (t1 t2 t3 t4 : String)
    (f1 f2 f3 f4 : List DirEntry) (r1 r2 r3 : String)
    (h1 : stage1_exact t1 f1 = some r1)
    (h2a : stage1_exact t2 f2 = none)
    (h2b : stage2_stem_ext (stemOf t2) f2 = some r2)
    (h3a : stage1_exact t3 f3 = none)
    (h3b : stage2_stem_ext (stemOf t3) f3 = none)
    (h3c : stage3_suffix_ext (stemOf t3) f3 = some r3)
    (h4a : stage1_exact t4 f4 = none)
    (h4b : stage2_stem_ext (stemOf t4) f4 = none)
    (h4c : stage3_suffix_ext (stemOf t4) f4 = none) :
    find_matching_media t1 f1 = some r1
    ∧ find_matching_media t2 f2 = some r2
    ∧ find_matching_media t3 f3 = some r3
    ∧ find_matching_media t4 f4 = stage4_fuzzy (stemOf t4) f4 := by
  refine ⟨?_, ?_, ?_, ?_⟩ <;>
    simp [find_matching_media, h1, h2a, h2b, h3a, h3b, h3c, h4a, h4b, h4c]

theorem C5_staged_matching_witness :
    find_matching_media "IMG_0001.jpg" [⟨"IMG_0001.jpg", true⟩] =
      some "IMG_0001.jpg"
    ∧ find_matching_media "IMG_0002.heic" [⟨"IMG_0002.jpg", true⟩] =
      some "IMG_0002.jpg"
    ∧ find_matching_media "IMG_0003.heic" [⟨"IMG_0003-edited.jpg", true⟩] =
      some "IMG_0003-edited.jpg"
    ∧ find_matching_media "IMG_20150101_123456789.heic"
        [⟨"IMG_20150101_1.jpg", true⟩] =
      stage4_fuzzy (stemOf "IMG_20150101_123456789.heic")
        [⟨"IMG_20150101_1.jpg", true⟩] :=
  C5_staged_matching "IMG_0001.jpg" "IMG_0002.heic" "IMG_0003.heic"
    "IMG_20150101_123456789.heic" [⟨"IMG_0001.jpg", true⟩]
    [⟨"IMG_0002.jpg", true⟩] [⟨"IMG_0003-edited.jpg", true⟩]
    [⟨"IMG_20150101_1.jpg", true⟩] "IMG_0001.jpg" "IMG_0002.jpg"
    "IMG_0003-edited.jpg" (by decide) (by decide) (by decide) (by decide)
    (by decide) (by decide) (by decide) (by decide) (by decide)

/-! ### C6 : failed repairs never lose the original -/

/-- C6: for a repair whose external invocation fails, the original file is
preserved unmodified — `fix_video` with a nonzero ffmpeg return code and
`fix_png` with a raising PIL save leave the filesystem untouched, return
the original path, and perform no destructive operation; and a source file
is deleted only after the replacement write has been confirmed successful:
whenever the trace contains the input deletion, the invocation succeeded
and the replacement write precedes the deletion (it is the first
operation of the trace). -/
theorem C6_no_premature_delete (fsv fsp : List (String × Nat))
    (vin pin : String) (vc pc : Nat) (uOk vOk pOk : Bool)
    (hv : FOp.deletedInput ∈ (fix_video_fs fsv vin vOk vc uOk).2.2)
    (hp : FOp.deletedInput ∈ (fix_png_fs fsp pin pOk pc).2.2) :
    fix_video_fs fsv vin false vc uOk = (fsv, vin, [])
    ∧ fix_png_fs fsp pin false pc = (fsp, pin, [])
    ∧ vOk = true
    ∧ (fix_video_fs fsv vin vOk vc uOk).2.2.head? = some .wroteOutput
    ∧ pOk = true
    ∧ (fix_png_fs fsp pin pOk pc).2.2.head? = some .wroteOutput := by
  have hvOk : vOk = true := by
    cases vOk
    · simp [fix_video_fs] at hv
    · rfl
  have hpOk : pOk = true := by
    cases pOk
    · simp [fix_png_fs] at hp
    · rfl
  subst hvOk; subst hpOk
  refine ⟨by simp [fix_video_fs], by simp [fix_png_fs], rfl, ?_, rfl, ?_⟩
  · cases uOk <;> simp [fix_video_fs]
  · simp [fix_png_fs]

theorem C6_no_premature_delete_witness :
    fix_video_fs [("v.mov", 7)] "v.mov" false 9 true =
      ([("v.mov", 7)], "v.mov", [])
    ∧ fix_png_fs [("p.png", 8)] "p.png" false 9 =
      ([("p.png", 8)], "p.png", [])
    ∧ true = true
    ∧ (fix_video_fs [("v.mov", 7)] "v.mov" true 9 true).2.2.head? =
        some .wroteOutput
    ∧ true = true
    ∧ (fix_png_fs [("p.png", 8)] "p.png" true 9).2.2.head? =
        some .wroteOutput :=
  C6_no_premature_delete [("v.mov", 7)] [("p.png", 8)] "v.mov" "p.png" 9 9
    true true true (by decide) (by decide)

/-! ### C1 : the two gates are fail-closed -/

/-- C1: both reconciliation gates are fail-closed.  When gate 1 finds even
one media stem of a source archive missing from the staging population,
`main` returns before the move loop: the outcome is `failedGate1`, the
whole filesystem state (staging, destination, extraction tree) is
unchanged, and the single log entry is a FAILED one carrying the complete
gap list.  When gate 2 finds even one recorded-as-moved name absent from
the destination, `main` returns before cleanup: the outcome is
`failedGate2`, the extraction tree survives (cleanup, which would wipe it,
never runs), and the log entry is a FAILED one carrying the complete list
of unverified names. -/
theorem C1_gates_fail_closed (zipsA : List ZipArch) (fsA : PipelineFS)
    (lockedA vanishA : List String) (zipsB : List ZipArch)
    (fsB : PipelineFS) (lockedB vanishB : List String)
    (hA : (zipMediaGaps zipsA fsA.importReady).isEmpty = false)
    (hB1 : (zipMediaGaps zipsB fsB.importReady).isEmpty = true)
    (hB2 : (gate2_missing (commitPhase fsB.importReady fsB.icloud lockedB).1
        (removeAll vanishB
          (commitPhase fsB.importReady fsB.icloud lockedB).2.2)).isEmpty
        = false) :
    run_batch zipsA fsA lockedA vanishA =
      (.failedGate1, fsA,
        [("FAILED - ZIP MISMATCH", zipMediaGaps zipsA fsA.importReady)])
    ∧ run_batch zipsB fsB lockedB vanishB =
      (.failedGate2,
        ⟨(commitPhase fsB.importReady fsB.icloud lockedB).2.1,
         removeAll vanishB
           (commitPhase fsB.importReady fsB.icloud lockedB).2.2,
         fsB.metaDir⟩,
        [("FAILED - ICLOUD TRANSFER ERROR",
          gate2_missing (commitPhase fsB.importReady fsB.icloud lockedB).1
            (removeAll vanishB
              (commitPhase fsB.importReady fsB.icloud lockedB).2.2))]) := by
  constructor
  · simp [run_batch, hA]
  · simp [run_batch, hB1, hB2]

theorem C1_gates_fail_closed_witness :
    run_batch [⟨"takeout-1.zip", false, ["Takeout/x.jpg"]⟩]
        ⟨[], [], ["takeout-1"]⟩ [] [] =
      (.failedGate1, ⟨[], [], ["takeout-1"]⟩,
        [("FAILED - ZIP MISMATCH", ["takeout-1.zip -> x.jpg"])])
    ∧ run_batch [] ⟨[("a.jpg", 1)], [], ["takeout-2"]⟩ [] ["a.jpg"] =
      (.failedGate2, ⟨[], [], ["takeout-2"]⟩,
        [("FAILED - ICLOUD TRANSFER ERROR", ["a.jpg"])]) := by
  have h := C1_gates_fail_closed
    [⟨"takeout-1.zip", false, ["Takeout/x.jpg"]⟩] ⟨[], [], ["takeout-1"]⟩
    [] [] [] ⟨[("a.jpg", 1)], [], ["takeout-2"]⟩ [] ["a.jpg"]
    (by decide) (by decide) (by decide)
  exact ⟨h.1.trans (by decide), h.2.trans (by decide)⟩

/-! ### C10 : commit-loop behaviour on names already in the destination -/

theorem commitStep_moved (locked : List String)
    (st : List String × List (String × Nat) × List (String × Nat))
    (f : String × Nat) : (commitStep locked st f).1 = st.1 ++ [f.1] := by
  unfold commitStep
  by_cases hc : containsName f.1 st.2.2 = true <;>
    by_cases hl : f.1 ∈ locked <;>
    simp [hc, hl]

theorem commit_moved_mono (locked : List String) (n : String) :
    ∀ (l : List (String × Nat))
      (acc : List String × List (String × Nat) × List (String × Nat)),
      n ∈ acc.1 → n ∈ (l.foldl (commitStep locked) acc).1 := by
  intro l
  induction l with
  | nil => intro acc h; exact h
  | cons f rest ih =>
    intro acc h
    rw [List.foldl_cons]
    exact ih _ (by rw [commitStep_moved]; exact List.mem_append_left _ h)

theorem commit_moved_of_mem (locked : List String) (n : String) (c : Nat) :
    ∀ (l : List (String × Nat))
      (acc : List String × List (String × Nat) × List (String × Nat)),
      (n, c) ∈ l → n ∈ (l.foldl (commitStep locked) acc).1 := by
  intro l
  induction l with
  | nil => intro acc h; cases h
  | cons f rest ih =>
    intro acc h
    rw [List.foldl_cons]
    rcases List.mem_cons.mp h with h | h
    · apply commit_moved_mono
      rw [commitStep_moved]
      apply List.mem_append_right
      simp [← h]
    · exact ih _ h

/-- Invariant of the move loop: a staged entry whose name is locked (its
destination unlink raises) is never moved — its destination entry keeps
its old content and the staged entry survives in the staging folder. -/
theorem commit_locked_invariant (locked : List String) (n : String)
    (c v : Nat) (hlock : locked.contains n = true) :
    ∀ (l : List (String × Nat))
      (acc : List String × List (String × Nat) × List (String × Nat)),
      lookupName n acc.2.2 = some v → (n, c) ∈ acc.2.1 →
      lookupName n (l.foldl (commitStep locked) acc).2.2 = some v
      ∧ (n, c) ∈ (l.foldl (commitStep locked) acc).2.1 := by
  intro l
  induction l with
  | nil => intro acc h1 h2; exact ⟨h1, h2⟩
  | cons f rest ih =>
    intro acc h1 h2
    rw [List.foldl_cons]
    by_cases hc : containsName f.1 acc.2.2 = true
    · by_cases hl : f.1 ∈ locked
      · apply ih
        · simpa [commitStep, hc, hl] using h1
        · simpa [commitStep, hc, hl] using h2
      · have hfn : f.1 ≠ n := by
          intro he
          rw [he] at hl
          exact hl (by simpa using hlock)
        apply ih
        · have e1 : (commitStep locked acc f).2.2 =
              f :: removeName f.1 acc.2.2 := by
            simp [commitStep, hc, hl]
          rw [e1, lookupName_cons,
            if_neg (show ¬((f.1 == n) = true) by simp [hfn]),
            lookupName_removeName_ne _ _ _ hfn]
          exact h1
        · have e2 : (commitStep locked acc f).2.1 =
              removeName f.1 acc.2.1 := by
            simp [commitStep, hc, hl]
          rw [e2]
          exact mem_removeName_ne _ _ _ h2 (Ne.symm hfn)
    · simp only [Bool.not_eq_true] at hc
      have hcn : containsName n acc.2.2 = true :=
        containsName_eq_true_of_lookup _ _ _ h1
      have hfn : f.1 ≠ n := by
        intro he
        rw [he, hcn] at hc
        exact Bool.noConfusion hc
      apply ih
      · have e1 : (commitStep locked acc f).2.2 = f :: acc.2.2 := by
          simp [commitStep, hc]
        rw [e1, lookupName_cons,
          if_neg (show ¬((f.1 == n) = true) by simp [hfn])]
        exact h1
      · have e2 : (commitStep locked acc f).2.1 =
            removeName f.1 acc.2.1 := by
          simp [commitStep, hc]
        rw [e2]
        exact mem_removeName_ne _ _ _ h2 (Ne.symm hfn)

/-- C10: during commit, a staged file whose name already exists in the
destination is handled by unlink-then-replace — after the step the
destination holds the staged file's content (last conjunct).  When that
unlink raises (`locked`), the staged file is skipped: it survives in
staging, the destination keeps the OLD content `v`, and yet the name is
still recorded in `files_moved`; the post-commit gate-2 by-name presence
check is then satisfied by the old destination file, not the staged
one. -/
theorem C10_locked_destination_skip (ir ic : List (String × Nat))
    (locked : List String) (n : String) (c v : Nat)
    (st : List String × List (String × Nat) × List (String × Nat))
    (f : String × Nat)
    (hmem : (n, c) ∈ ir) (hlock : locked.contains n = true)
    (hold : lookupName n ic = some v)
    (hrc : containsName f.1 st.2.2 = true)
    (hrl : locked.contains f.1 = false) :
    n ∈ (commitPhase ir ic locked).1
    ∧ (n, c) ∈ (commitPhase ir ic locked).2.1
    ∧ lookupName n (commitPhase ir ic locked).2.2 = some v
    ∧ n ∉ gate2_missing (commitPhase ir ic locked).1
        (commitPhase ir ic locked).2.2
    ∧ lookupName f.1 (commitStep locked st f).2.2 = some f.2 := by
  simp only [commitPhase]
  have hinv := commit_locked_invariant locked n c v hlock ir ([], ir, ic)
    hold hmem
  refine ⟨commit_moved_of_mem locked n c ir ([], ir, ic) hmem, hinv.2,
    hinv.1, ?_, ?_⟩
  · intro hmemf
    simp only [gate2_missing] at hmemf
    have h2 := (List.mem_filter.mp hmemf).2
    rw [containsName_eq_true_of_lookup _ _ _ hinv.1] at h2
    simp at h2
  · have hrl2 : f.1 ∉ locked := by simpa using hrl
    have e : (commitStep locked st f).2.2 = f :: removeName f.1 st.2.2 := by
      simp [commitStep, hrc, hrl2]
    rw [e, lookupName_cons]
    simp

theorem C10_locked_destination_skip_witness :
    "a.jpg" ∈ (commitPhase [("a.jpg", 2)] [("a.jpg", 1)] ["a.jpg"]).1
    ∧ ("a.jpg", 2) ∈ (commitPhase [("a.jpg", 2)] [("a.jpg", 1)] ["a.jpg"]).2.1
    ∧ lookupName "a.jpg"
        (commitPhase [("a.jpg", 2)] [("a.jpg", 1)] ["a.jpg"]).2.2 = some 1
    ∧ "a.jpg" ∉ gate2_missing
        (commitPhase [("a.jpg", 2)] [("a.jpg", 1)] ["a.jpg"]).1
        (commitPhase [("a.jpg", 2)] [("a.jpg", 1)] ["a.jpg"]).2.2
    ∧ lookupName "b.jpg"
        (commitStep ["a.jpg"] ([], [], [("b.jpg", 3)]) ("b.jpg", 4)).2.2 =
      some 4 :=
  C10_locked_destination_skip [("a.jpg", 2)] [("a.jpg", 1)] ["a.jpg"]
    "a.jpg" 2 1 ([], [], [("b.jpg", 3)]) ("b.jpg", 4) (by decide)
    (by decide) (by decide) (by decide) (by decide)

end ProcessPhotos
